import Mathlib

/-!
# Verification of `derive_state_machine_future/src/ast.rs`

A shallow embedding of the AST layer of the `state_machine_future` derive:
the phase-generic `StateMachine` / `State` data model with its
`split` / `join` / `and_then` phase-transformer protocol, and the
`CollectIdents` free-identifier analysis over `syn` type expressions.

Modelling conventions:
* Rust panics (`unwrap()` on `None`, `unreachable!()`, `unimplemented!()`)
  are modelled by returning `none` from an `Option`-valued function: a
  `none` result means the pipeline aborts and no value is produced.
* `syn::Ident` is modelled as `String`; opaque pass-through tokens
  (`syn::Visibility`, `syn::Generics`, `syn::Attribute`) are modelled as
  `String`s since this layer never inspects them.
* The mutable `&mut HashSet<syn::Ident>` accumulator of `collect_idents`
  is threaded functionally as a `Finset String`, in the same order the
  Rust code performs its insertions and recursive calls.
-/

namespace StateMachineFutureAst

/-- Model of `syn::Lifetime`: a region (lifetime) literal, carrying its
identifier. -/
structure Lifetime where
  ident : String

/- The fragment of the `syn` type/expression grammar that `CollectIdents`
in `ast.rs` traverses.  One constructor per `match` arm of the Rust
`impl`s. -/
mutual

/-- Model of `syn::Type` as matched by `CollectIdents for syn::Type`. -/
inductive Typ : Type where
  | path (qself : Option Typ) (p : Path)
  | slice (elem : Typ)
  | paren (elem : Typ)
  | ptr (elem : Typ)
  | reference (lifetime : Option Lifetime) (elem : Typ)
  | tuple (elems : List Typ)
  | bareFn (inputs : List Typ) (output : Option Typ)
  | array (elem : Typ) (len : Expr)
  | never
  | macroTy
  | traitObject
  | implTrait
  | infer

/-- Model of `syn::Path`: a leading-root-qualifier flag (`Path::global()`) and its
segments. -/
inductive Path : Type where
  | mk (global : Bool) (segments : List PathSegment)

/-- Model of `syn::PathSegment`: an identifier plus its path arguments. -/
inductive PathSegment : Type where
  | mk (ident : String) (arguments : PathArguments)

/-- Model of `syn::PathArguments` as matched in `ast.rs`; a segment written with
no arguments is represented as `angleBracketed []`, which collects
nothing. -/
inductive PathArguments : Type where
  | angleBracketed (args : List GenericArgument)
  | parenthesized (inputs : List Typ) (output : Option Typ)

/-- Model of `syn::GenericArgument` as matched in the `AngleBracketed` arm. -/
inductive GenericArgument : Type where
  | lifetime (l : Lifetime)
  | typ (t : Typ)
  | binding (ident : String) (ty : Typ)
  | constArg (e : Expr)

/-- Model of `syn::Expr` as matched by `CollectIdents for syn::Expr`. -/
inductive Expr : Type where
  | call (func : Expr) (args : List Expr)
  | binary (left : Expr) (right : Expr)
  | index (expr : Expr) (idx : Expr)
  | unary (expr : Expr)
  | paren (expr : Expr)
  | cast (expr : Expr) (ty : Typ)
  | pathExpr (p : Path)
  | lit

end

/-- The segment list of a `Path`. -/
def Path.segments : Path → List PathSegment
  | .mk _ segs => segs

/-- The `global` (leading `::`) flag of a `Path`. -/
def Path.global : Path → Bool
  | .mk g _ => g

/-- The identifier of a `PathSegment`. -/
def PathSegment.ident : PathSegment → String
  | .mk id _ => id

/-- The arguments of a `PathSegment`. -/
def PathSegment.arguments : PathSegment → PathArguments
  | .mk _ args => args

/-- Model of `impl CollectIdents for syn::Lifetime`: the body is
`unimplemented!()`, an unconditional panic, modelled as `none`. -/
def Lifetime.collectIdents : Lifetime → Finset String → Option (Finset String) :=
  fun _ _ => none

/-- The non-recursive head of `CollectIdents for syn::Path`: if the path
has exactly one segment and is not global, insert that segment's
identifier (it could be a generic type parameter); otherwise leave the
accumulator unchanged. -/
def Path.selfIdent : Bool → List PathSegment → Finset String → Finset String
  | false, [PathSegment.mk id _], idents => insert id idents
  | _, _, idents => idents

mutual

/-- Model of `impl CollectIdents for syn::Type`. -/
def Typ.collectIdents : Typ → Finset String → Option (Finset String)
  | .path none p, idents => Path.collectIdents p idents
  | .path (some qself) p, idents =>
      (Typ.collectIdents qself idents).bind (fun acc => Path.collectIdents p acc)
  | .slice elem, idents => Typ.collectIdents elem idents
  | .paren elem, idents => Typ.collectIdents elem idents
  | .ptr elem, idents => Typ.collectIdents elem idents
  | .reference none elem, idents => Typ.collectIdents elem idents
  | .reference (some lt) elem, idents =>
      (Lifetime.collectIdents lt idents).bind (fun acc => Typ.collectIdents elem acc)
  | .tuple elems, idents => Typ.collectIdentsList elems idents
  | .bareFn inputs none, idents => Typ.collectIdentsList inputs idents
  | .bareFn inputs (some output), idents =>
      (Typ.collectIdentsList inputs idents).bind (fun acc => Typ.collectIdents output acc)
  | .array elem _, idents => Typ.collectIdents elem idents
  | .never, idents => some idents
  | .macroTy, idents => some idents
  | .traitObject, idents => some idents
  | .implTrait, idents => some idents
  | .infer, idents => some idents

/-- Sequential `for_each`-style traversal of a list of types. -/
def Typ.collectIdentsList : List Typ → Finset String → Option (Finset String)
  | [], idents => some idents
  | t :: ts, idents =>
      (Typ.collectIdents t idents).bind (fun acc => Typ.collectIdentsList ts acc)

/-- Model of `impl CollectIdents for syn::Path`: maybe insert the single-segment
identifier, then recurse into every segment's arguments. -/
def Path.collectIdents : Path → Finset String → Option (Finset String)
  | .mk g segments, idents =>
      PathSegment.collectIdentsList segments (Path.selfIdent g segments idents)

/-- Sequential traversal of the segments' arguments
(`self.segments.iter().for_each(|s| s.arguments.collect_idents(..))`). -/
def PathSegment.collectIdentsList : List PathSegment → Finset String → Option (Finset String)
  | [], idents => some idents
  | .mk _ args :: rest, idents =>
      (PathArguments.collectIdents args idents).bind
        (fun acc => PathSegment.collectIdentsList rest acc)

/-- Model of `impl CollectIdents for syn::PathArguments`. -/
def PathArguments.collectIdents : PathArguments → Finset String → Option (Finset String)
  | .angleBracketed args, idents => GenericArgument.collectIdentsList args idents
  | .parenthesized inputs none, idents => Typ.collectIdentsList inputs idents
  | .parenthesized inputs (some output), idents =>
      (Typ.collectIdentsList inputs idents).bind (fun acc => Typ.collectIdents output acc)

/-- The per-argument dispatch closure inside the `AngleBracketed` arm:
lifetime arguments recurse into the lifetime, type arguments into the
type, bindings into the bound type, and const arguments are not
inspected. -/
def GenericArgument.collectIdents : GenericArgument → Finset String → Option (Finset String)
  | .lifetime l, idents => Lifetime.collectIdents l idents
  | .typ t, idents => Typ.collectIdents t idents
  | .binding _ ty, idents => Typ.collectIdents ty idents
  | .constArg _, idents => some idents

/-- Sequential traversal of a generic-argument list. -/
def GenericArgument.collectIdentsList :
    List GenericArgument → Finset String → Option (Finset String)
  | [], idents => some idents
  | arg :: rest, idents =>
      (GenericArgument.collectIdents arg idents).bind
        (fun acc => GenericArgument.collectIdentsList rest acc)

/-- Model of `impl CollectIdents for syn::Expr`. -/
def Expr.collectIdents : Expr → Finset String → Option (Finset String)
  | .call f args, idents =>
      (Expr.collectIdents f idents).bind (fun acc => Expr.collectIdentsList args acc)
  | .binary l r, idents =>
      (Expr.collectIdents l idents).bind (fun acc => Expr.collectIdents r acc)
  | .index e i, idents =>
      (Expr.collectIdents e idents).bind (fun acc => Expr.collectIdents i acc)
  | .unary e, idents => Expr.collectIdents e idents
  | .paren e, idents => Expr.collectIdents e idents
  | .cast e ty, idents =>
      (Typ.collectIdents ty idents).bind (fun acc => Expr.collectIdents e acc)
  | .pathExpr p, idents => Path.collectIdents p idents
  | .lit, idents => some idents

/-- Sequential traversal of a list of expressions (call arguments). -/
def Expr.collectIdentsList : List Expr → Finset String → Option (Finset String)
  | [], idents => some idents
  | e :: es, idents =>
      (Expr.collectIdents e idents).bind (fun acc => Expr.collectIdentsList es acc)

end

/-- A bare, single-segment, non-global type path `T` with no path
arguments — the way a lone generic-parameter reference parses. -/
def bareTy (name : String) : Typ :=
  .path none (.mk false [.mk name (.angleBracketed [])])

/-- Model of `syn::Field`: an optionally named field with a type expression. -/
structure Field where
  ident : Option String
  ty : Typ

/-- Model of `darling::ast::Data<V, ()>` with `supports(enum_any)`: either the
enum-like list of variants or the record-like shape (whose `Fields<()>`
payload carries no information this layer ever reads). -/
inductive Data (V : Type) : Type where
  | enum (variants : List V)
  | structData

/-- Model of `darling::ast::Data::take_enum`: `some` the variant list, `none`
for the record-like shape. -/
def Data.takeEnum : Data V → Option (List V)
  | .enum variants => some variants
  | .structData => none

/-- Model of `ast::State<P>`: one variant/state of the machine.  The phase `P` is
represented by its associated state-level payload type `SE`
(`P::StateExtra`); `NoPhase` has `SE = Unit`. -/
structure State (SE : Type) where
  ident : String
  attrs : List String
  fields : List Field
  start : Bool
  ready : Bool
  error : Bool
  transitions : List String
  extra : SE

/-- Model of `ast::StateMachine<P>`: the phase `P` is represented by its two
associated payload types `ME = P::StateMachineExtra` and
`SE = P::StateExtra`; `NoPhase` has `ME = SE = Unit`. -/
structure StateMachine (ME SE : Type) where
  ident : String
  vis : String
  generics : String
  data : Data (State SE)
  attrs : List String
  derive : List String
  extra : ME

/-- Model of `State::split`: separate the per-phase data out, leaving a
`NoPhase` skeleton. -/
def State.split (s : State SE) : State Unit × SE :=
  (⟨s.ident, s.attrs, s.fields, s.start, s.ready, s.error, s.transitions, ()⟩, s.extra)

/-- Model of `State::join`: recombine a `NoPhase` skeleton with a new phase's
state-level extra data. -/
def State.join (s : State Unit) (extra : SE) : State SE :=
  ⟨s.ident, s.attrs, s.fields, s.start, s.ready, s.error, s.transitions, extra⟩

/-- Model of `State::and_then`: split, then build a state in a new phase. -/
def State.andThen (s : State SE) (f : State Unit → SE → State QE) : State QE :=
  f (s.split).1 (s.split).2

/-- Model of `StateMachine::split`: `self.data.take_enum().unwrap()` panics
(`none`) on the record-like shape; otherwise returns the `NoPhase`
skeleton (with `extra = ()` and an empty state list), the machine-level
extra payload, and the full state sequence. -/
def StateMachine.split (m : StateMachine ME SE) :
    Option (StateMachine Unit Unit × ME × List (State SE)) :=
  match m.data.takeEnum with
  | none => none
  | some states =>
      some (⟨m.ident, m.vis, m.generics, Data.enum [], m.attrs, m.derive, ()⟩,
            m.extra, states)

/-- Model of `StateMachine::states`: the stored state list in declaration order;
the record-like shape hits `unreachable!()`, modelled as `none`. -/
def StateMachine.states (m : StateMachine ME SE) : Option (List (State SE)) :=
  match m.data with
  | .enum states => some states
  | .structData => none

/-- Model of `StateMachine::join` (on the `NoPhase` machine): recombine with a
new phase's machine-level extra and state sequence. -/
def StateMachine.join (m : StateMachine Unit Unit) (extra : ME)
    (states : List (State SE)) : StateMachine ME SE :=
  ⟨m.ident, m.vis, m.generics, Data.enum states, m.attrs, m.derive, extra⟩

/-- Model of `StateMachine::and_then`: split (propagating its panic), then apply
the caller-supplied transformation to the triple. -/
def StateMachine.andThen (m : StateMachine ME SE)
    (f : StateMachine Unit Unit → ME → List (State SE) → StateMachine QME QSE) :
    Option (StateMachine QME QSE) :=
  match m.split with
  | none => none
  | some (machine, extra, states) => some (f machine extra states)

/-- A concrete state (phase payload `Nat`) used to instantiate theorems. -/
def exState : State Nat :=
  ⟨"Start", ["doc"], [⟨some "conn", bareTy "T"⟩], true, false, false, ["Waiting"], 3⟩

/-- A concrete enum-shaped machine (phase payloads `Nat`, `Nat`). -/
def exMachine : StateMachine Nat Nat :=
  ⟨"Connect", "pub", "<T>", Data.enum [exState], ["allow"], ["Clone"], 7⟩

/-- The `NoPhase` skeleton that `exMachine.split` produces. -/
def exNoPhase : StateMachine Unit Unit :=
  ⟨"Connect", "pub", "<T>", Data.enum [], ["allow"], ["Clone"], ()⟩

/-- A machine whose underlying data is the record-like shape, which the
derive's `supports(enum_any)` never constructs. -/
def exStructMachine : StateMachine Nat Nat :=
  ⟨"Connect", "pub", "<T>", Data.structData, ["allow"], ["Clone"], 7⟩

/-- C9: `states()` returns the stored state list in declaration order on
the enum-like shape, and aborts (`unreachable!()`, modelled `none`) on
the record-like shape rather than signalling a recoverable error. -/
theorem StateMachine.states_enum_or_abort {ME SE : Type}
    (m : StateMachine ME SE) :
    (∀ sts : List (State SE), m.data = Data.enum sts → m.states = some sts) ∧
    (m.data = Data.structData → m.states = none) := by
  constructor
  · intro sts h
    simp [StateMachine.states, h]
  · intro h
    simp [StateMachine.states, h]

/-- Witness for C9 at the two concrete machines. -/
theorem StateMachine.states_enum_or_abort_witness :
    exMachine.states = some [exState] ∧ exStructMachine.states = none :=
  ⟨(StateMachine.states_enum_or_abort exMachine).1 [exState] rfl,
   (StateMachine.states_enum_or_abort exStructMachine).2 rfl⟩

/-- C4: on an enum-shaped machine, `split` returns exactly the `NoPhase`
skeleton (all structural fields unchanged, `extra = ()`, empty state
list), the machine-level extra payload, and the full state sequence. -/
theorem StateMachine.split_destructures {ME SE : Type}
    (m : StateMachine ME SE) (sts : List (State SE))
    (h : m.data = Data.enum sts) :
    m.split = some (⟨m.ident, m.vis, m.generics, Data.enum [], m.attrs, m.derive, ()⟩,
                    m.extra, sts) := by
  simp [StateMachine.split, h, Data.takeEnum]

/-- Witness for C4 at the concrete machine. -/
theorem StateMachine.split_destructures_witness :
    exMachine.split = some (exNoPhase, 7, [exState]) :=
  StateMachine.split_destructures exMachine [exState] rfl

/-- C1: splitting and then joining the resulting `NoPhase` machine with
the extracted extra payload and state sequence reconstructs the original
machine (full structural equality, hence equality on `ident`, `vis`,
`generics`, `attrs`, `derive`, and states). -/
theorem StateMachine.split_join_roundtrip {ME SE : Type}
    (m : StateMachine ME SE) (m0 : StateMachine Unit Unit)
    (e : ME) (s : List (State SE))
    (h : m.split = some (m0, e, s)) :
    m0.join e s = m := by
  obtain ⟨id, vi, ge, d, a, de, ex⟩ := m
  cases d with
  | enum sts =>
      simp [StateMachine.split, Data.takeEnum] at h
      obtain ⟨h0, h1, h2⟩ := h
      subst h0 h1 h2
      rfl
  | structData =>
      simp [StateMachine.split, Data.takeEnum] at h

/-- Witness for C1 at the concrete machine. -/
theorem StateMachine.split_join_roundtrip_witness :
    exNoPhase.join 7 [exState] = exMachine :=
  StateMachine.split_join_roundtrip exMachine exNoPhase 7 [exState] rfl

/-- C8: `and_then f` equals `f` applied to the triple returned by
`split`; in particular when `f` rebuilds via `join`, it equals `join` of
the split's `NoPhase` machine with `f`'s extra and states. -/
theorem StateMachine.and_then_applies_f_to_split {ME SE QME QSE : Type}
    (m : StateMachine ME SE)
    (f : StateMachine Unit Unit → ME → List (State SE) → StateMachine QME QSE)
    (g : ME → List (State SE) → QME)
    (st : ME → List (State SE) → List (State QSE))
    (m0 : StateMachine Unit Unit) (e : ME) (s : List (State SE))
    (h : m.split = some (m0, e, s)) :
    m.andThen f = some (f m0 e s) ∧
    m.andThen (fun a x y => a.join (g x y) (st x y)) =
      some (m0.join (g e s) (st e s)) := by
  constructor <;> simp [StateMachine.andThen, h]

/-- Witness for C8 at the concrete machine with a concrete rebuilding
transformation. -/
theorem StateMachine.and_then_applies_f_to_split_witness :
    exMachine.andThen (fun a x y => a.join (x + 1) y) =
      some (exNoPhase.join 8 [exState]) ∧
    exMachine.andThen (fun a x y => a.join (x + 1) y) =
      some (exNoPhase.join 8 [exState]) :=
  StateMachine.and_then_applies_f_to_split exMachine
    (fun a x y => a.join (x + 1) y) (fun x _ => x + 1) (fun _ y => y)
    exNoPhase 7 [exState] rfl

/-- C5: the state-level `join` changes only `extra`, leaving `ident`,
`attrs`, `fields`, `start`, `ready`, `error`, `transitions` unchanged;
the state-level `split` separates exactly the `NoPhase` skeleton and the
phase-specific extra payload, and they recombine to the original. -/
theorem State.split_join_frame {SE QE : Type}
    (s : State Unit) (q : QE) (t : State SE) :
    ((s.join q).ident = s.ident ∧ (s.join q).attrs = s.attrs ∧
     (s.join q).fields = s.fields ∧ (s.join q).start = s.start ∧
     (s.join q).ready = s.ready ∧ (s.join q).error = s.error ∧
     (s.join q).transitions = s.transitions ∧ (s.join q).extra = q) ∧
    t.split = (⟨t.ident, t.attrs, t.fields, t.start, t.ready, t.error,
                t.transitions, ()⟩, t.extra) ∧
    ((t.split).1).join (t.split).2 = t :=
  ⟨⟨rfl, rfl, rfl, rfl, rfl, rfl, rfl, rfl⟩, rfl, rfl⟩

/-- Reaching the region-literal branch from a generic-argument list
aborts the whole traversal: no result set is produced. -/
theorem GenericArgument.collectIdentsList_none_of_mem
    (l : Lifetime) (args : List GenericArgument)
    (hmem : GenericArgument.lifetime l ∈ args) :
    ∀ acc : Finset String, GenericArgument.collectIdentsList args acc = none := by
  induction args with
  | nil => cases hmem
  | cons a rest ih =>
      intro acc
      cases hmem with
      | head =>
          simp [GenericArgument.collectIdentsList, GenericArgument.collectIdents,
                Lifetime.collectIdents]
      | tail _ hmem =>
          cases h2 : GenericArgument.collectIdents a acc with
          | none => simp [GenericArgument.collectIdentsList, h2]
          | some acc2 => simp [GenericArgument.collectIdentsList, h2, ih hmem acc2]

/-- C3: the region-literal collection branch (`unimplemented!()`) never
returns normally — on every lifetime and accumulator it aborts — and any
generic-argument traversal that reaches it aborts without producing a
result set. -/
theorem collectIdents_region_literal_aborts (l : Lifetime) (acc : Finset String)
    (args : List GenericArgument) (hmem : GenericArgument.lifetime l ∈ args) :
    Lifetime.collectIdents l acc = none ∧
    GenericArgument.collectIdentsList args acc = none :=
  ⟨rfl, GenericArgument.collectIdentsList_none_of_mem l args hmem acc⟩

/-- Witness for C3 at a concrete lifetime and argument list. -/
theorem collectIdents_region_literal_aborts_witness :
    Lifetime.collectIdents ⟨"a"⟩ ∅ = none ∧
    GenericArgument.collectIdentsList
      [.constArg .lit, .lifetime ⟨"a"⟩] ∅ = none :=
  collectIdents_region_literal_aborts ⟨"a"⟩ ∅
    [.constArg .lit, .lifetime ⟨"a"⟩] (List.Mem.tail _ (List.Mem.head _))

/-- C10: a reference type carrying a lifetime annotation aborts the
collector (the lifetime is visited first and hits the unimplemented
branch), while a reference without one recurses into the referent. -/
theorem collectIdents_reference (lt : Lifetime) (T : Typ) (acc : Finset String) :
    Typ.collectIdents (.reference (some lt) T) acc = none ∧
    Typ.collectIdents (.reference none T) acc = Typ.collectIdents T acc := by
  constructor
  · simp [Typ.collectIdents, Lifetime.collectIdents]
  · simp [Typ.collectIdents]

/-- C7: a bare single-segment non-global type path `T` collects exactly
the singleton set containing `T`. -/
theorem collectIdents_bare_single_segment (name : String) :
    Typ.collectIdents (bareTy name) ∅ = some {name} := by
  simp [bareTy, Typ.collectIdents, Path.collectIdents, Path.selfIdent,
        PathSegment.collectIdentsList, PathArguments.collectIdents,
        GenericArgument.collectIdentsList]

/-- The path `a::b::C<T>`: three segments, not global, with the last
segment carrying one type argument. -/
def multiSegPath (a b c t : String) : Path :=
  .mk false [.mk a (.angleBracketed []), .mk b (.angleBracketed []),
             .mk c (.angleBracketed [.typ (bareTy t)])]

/-- With more than one segment the single-segment insertion does not
fire. -/
theorem Path.selfIdent_of_one_lt (g : Bool) (segs : List PathSegment)
    (acc : Finset String) (h : 1 < segs.length) :
    Path.selfIdent g segs acc = acc := by
  match g, segs with
  | g, [] => simp at h
  | g, [x] => simp at h
  | g, x :: y :: rest => cases g <;> cases x <;> rfl

/-- C2: on a path with more than one segment the collector adds none of
the path's own segment identifiers — it only recurses into the segments'
arguments — and on `a::b::C<T>` it collects exactly `{T}`. -/
theorem collectIdents_multi_segment (p : Path) (acc : Finset String)
    (a b c t : String) :
    (1 < p.segments.length →
      Path.collectIdents p acc = PathSegment.collectIdentsList p.segments acc) ∧
    Path.collectIdents (multiSegPath a b c t) ∅ = some {t} := by
  constructor
  · intro h
    obtain ⟨g, segs⟩ := p
    simp only [Path.segments] at h ⊢
    rw [Path.collectIdents, Path.selfIdent_of_one_lt g segs acc h]
  · simp [multiSegPath, Path.collectIdents, Path.selfIdent,
          PathSegment.collectIdentsList, PathArguments.collectIdents,
          GenericArgument.collectIdentsList, GenericArgument.collectIdents,
          Typ.collectIdents, bareTy]

/-- Witness for C2 at the concrete path `a::b::C<T>`. -/
theorem collectIdents_multi_segment_witness :
    Path.collectIdents (multiSegPath "a" "b" "c" "T") ∅ =
      PathSegment.collectIdentsList (multiSegPath "a" "b" "c" "T").segments ∅ ∧
    Path.collectIdents (multiSegPath "a" "b" "c" "T") ∅ = some {"T"} :=
  ⟨(collectIdents_multi_segment (multiSegPath "a" "b" "c" "T") ∅ "a" "b" "c" "T").1
     (by decide),
   (collectIdents_multi_segment (multiSegPath "a" "b" "c" "T") ∅ "a" "b" "c" "T").2⟩

/-- C6: slice, array, pointer, (unannotated) reference, and
single-element tuple of `T` collect exactly what `T` collects, and a
tuple of two bare single-segment types collects exactly both names. -/
theorem collectIdents_composite (T : Typ) (len : Expr) (acc : Finset String)
    (t u : String) :
    Typ.collectIdents (.slice T) acc = Typ.collectIdents T acc ∧
    Typ.collectIdents (.array T len) acc = Typ.collectIdents T acc ∧
    Typ.collectIdents (.ptr T) acc = Typ.collectIdents T acc ∧
    Typ.collectIdents (.reference none T) acc = Typ.collectIdents T acc ∧
    Typ.collectIdents (.tuple [T]) acc = Typ.collectIdents T acc ∧
    Typ.collectIdents (.tuple [bareTy t, bareTy u]) ∅ = some {t, u} := by
  refine ⟨by rw [Typ.collectIdents], by rw [Typ.collectIdents],
          by rw [Typ.collectIdents], by rw [Typ.collectIdents], ?_, ?_⟩
  · cases h : Typ.collectIdents T acc with
    | none => simp [Typ.collectIdents, Typ.collectIdentsList, h]
    | some r => simp [Typ.collectIdents, Typ.collectIdentsList, h]
  · calc Typ.collectIdents (.tuple [bareTy t, bareTy u]) ∅
        = some (insert u (insert t ∅)) := by
          simp [Typ.collectIdents, Typ.collectIdentsList, bareTy,
                Path.collectIdents, Path.selfIdent, PathSegment.collectIdentsList,
                PathArguments.collectIdents, GenericArgument.collectIdentsList]
      _ = some {t, u} := congrArg some (Finset.Insert.comm u t ∅)

end StateMachineFutureAst
